import Mathlib

/-
Verification of the am335x-updater firmware update engine.

The development shallowly embeds the core of src/am335x-updater.py:
byte streams become `List Nat` (each element one byte), stream reads at an
offset become `readBytes`, and the fallible Python functions (which raise
`InvalidFirmwareImage` / `InvalidUBootImage` / `ValueError`) become
`Except`-valued Lean functions.  External collaborators that are not part
of the repository are passed in as explicit function parameters:
`sha256hex` stands for `hashlib.sha256(...).hexdigest()`, `decode` stands
for the external `dtc` decompile/convert pipeline used by the FIT
detector, `block_size` stands for the sysfs block-size lookup, and
`contents` maps a device or file path to the bytes stored there.
-/

set_option maxRecDepth 1000000

deriving instance DecidableEq for Except

/-- Bytes `[off, off+n)` of a stream, as returned by seeking to `off` and
reading `n` bytes: a read past the end returns only the available bytes. -/
def readBytes (data : List Nat) (off n : Nat) : List Nat :=
  (data.drop off).take n

/-- Overwrite the bytes of `data` starting at `off` with `bs`. -/
def writeBytes (data : List Nat) (off : Nat) (bs : List Nat) : List Nat :=
  data.take off ++ bs ++ data.drop (off + bs.length)

/-- Byte `i` of a buffer (0 past the end). -/
def byteAt (data : List Nat) (i : Nat) : Nat :=
  data.getD i 0

/-- Little-endian unsigned 32-bit value of a 4-byte buffer, as unpacked by
the struct format `<I`. -/
def leU32 (bs : List Nat) : Nat :=
  byteAt bs 0 + 256 * byteAt bs 1 + 65536 * byteAt bs 2 + 16777216 * byteAt bs 3

/-- Big-endian unsigned 32-bit value of a 4-byte buffer, as unpacked by
the struct format `>I`. -/
def beU32 (bs : List Nat) : Nat :=
  16777216 * byteAt bs 0 + 65536 * byteAt bs 1 + 256 * byteAt bs 2 + byteAt bs 3

/-- Errors raised by the image detectors: `invalidFirmware` embeds
`InvalidFirmwareImage` (a format mismatch) and `invalidUBoot` embeds its
subclass `InvalidUBootImage` (right container, wrong role). -/
inductive ImageError where
  | invalidFirmware (msg : String)
  | invalidUBoot (msg : String)
  deriving DecidableEq, Repr

/-- The fixed known-good SHA-256 hex digest of the 512-byte MLO TOC,
copied from `get_mlo_toc_size`. -/
def mlo_toc_expected_hash : String :=
  "21a542439d495f829f448325a75a2a377bf84c107751fe77a0aeb321d1e23868"

/-- Embedding of `get_mlo_toc_size`: hash the 512-byte TOC at the current
stream position against the fixed digest; on a match, the image size is
the little-endian u32 right after the TOC, plus the TOC length.  The
trailer read is faithful only on streams holding the full 516-byte
region: on a shorter stream the source raises `struct.error` after a
hash match (`struct.unpack_from` on a short buffer), a crash this model
does not represent, so theorems about the match path carry a
516-byte length hypothesis. -/
def get_mlo_toc_size (sha256hex : List Nat → String) (stream : List Nat) :
    Except ImageError Nat :=
  let toc_hex := sha256hex (readBytes stream 0 512)
  if toc_hex ≠ mlo_toc_expected_hash then
    Except.error (ImageError.invalidFirmware ("TOC hash did not match"))
  else
    Except.ok (leU32 (readBytes stream 512 4) + 512)

/-- Embedding of `get_u_boot_legacy_size`: parse the 64-byte header with
struct format `>7I4B32s`, so field 0 is bytes 0-3 big-endian, field 3 is
bytes 12-15 big-endian, field 7 is byte 28 and field 9 is byte 30. -/
def get_u_boot_legacy_size (stream : List Nat) : Except ImageError Nat :=
  let header := readBytes stream 0 64
  if beU32 (readBytes header 0 4) ≠ 0x27051956 then
    Except.error (ImageError.invalidFirmware ("Incorrect legacy U-Boot magic number"))
  else if byteAt header 28 ≠ 17 then
    Except.error (ImageError.invalidUBoot ("U-Boot image found, but with the incorrect OS"))
  else if byteAt header 30 ≠ 5 then
    Except.error
      (ImageError.invalidUBoot ("U-Boot image found, but with the incorrect image type"))
  else
    Except.ok (beU32 (readBytes header 12 4) + 64)

/-- Embedding of `align_up`: `n` rounded up to a multiple of `align_to`. -/
def align_up (n align_to : Nat) : Nat :=
  align_to * ((n + align_to - 1) / align_to)

/-- One decoded sub-image node of a flattened image tree, holding the
values read from the YAML produced by the external decoding pipeline.
Missing `data-offset` / `data-size` keys are `none` (a `KeyError` in the
source); `image_type` and `image_os` model the `.get` defaults. -/
structure FitImage where
  data_offset : Option Nat
  data_size : Option Nat
  image_type : Option String
  image_os : Option String
  deriving DecidableEq, Repr

/-- The `for image_data in images.values()` loop of `get_u_boot_fit_size`:
threads the largest data-offset seen, the data-size recorded with it, and
whether a U-Boot firmware sub-image was found. -/
def fitLoop : List FitImage → Nat → Nat → Bool → Except ImageError (Nat × Nat × Bool)
  | [], largest_offset, offset_size, uboot_image_found =>
      Except.ok (largest_offset, offset_size, uboot_image_found)
  | image :: rest, largest_offset, offset_size, uboot_image_found =>
      match image.data_offset, image.data_size with
      | some image_offset, some image_size =>
          let pair : Nat × Nat :=
            if largest_offset < image_offset then (image_offset, image_size)
            else (largest_offset, offset_size)
          fitLoop rest pair.1 pair.2
            (uboot_image_found ||
              (decide (image.image_type = some ("firmware")) &&
               decide (image.image_os = some ("u-boot"))))
      | _, _ => Except.error (ImageError.invalidFirmware ("Invalid access in FIT parsing"))

/-- Embedding of `get_u_boot_fit_size`: check the FDT magic, hand the blob
to the external decoding pipeline (`decode`, standing for the dtc/yaml
subprocess chain; `none` models the KeyError/IndexError path), walk the
decoded image nodes, and combine the rounded-up blob length with the
rounded-up end of the last-placed sub-image. -/
def get_u_boot_fit_size (decode : List Nat → Option (List FitImage))
    (stream : List Nat) : Except ImageError Nat :=
  let magic := beU32 (readBytes stream 0 4)
  let fdt_len := beU32 (readBytes stream 4 4)
  if magic ≠ 0xd00dfeed then
    Except.error (ImageError.invalidFirmware ("Magic number does not match for an FDT"))
  else
    match decode (readBytes stream 0 fdt_len) with
    | none => Except.error (ImageError.invalidFirmware ("Invalid access in FIT parsing"))
    | some images =>
      match fitLoop images 0 0 false with
      | Except.error e => Except.error e
      | Except.ok (largest_offset, offset_size, uboot_image_found) =>
        if uboot_image_found then
          Except.ok (align_up fdt_len 4 + align_up (largest_offset + offset_size) 4)
        else
          Except.error
            (ImageError.invalidUBoot ("No U-Boot firmware sub-image contained within FIT image."))

/-- The four 16-byte primary partition entries, read from offset 0x1be of
the stream. -/
def mbrEntries (stream : List Nat) : List (List Nat) :=
  (List.range 4).map (fun i => readBytes stream (0x1be + 16 * i) 16)

/-- Test `any(entry_buf)`: a partition entry is non-empty when some byte
is non-zero. -/
def isNonEmptyEntry (entry_buf : List Nat) : Bool :=
  entry_buf.any (fun b => decide (b ≠ 0))

/-- One iteration of the partition-entry loop of
`find_mbr_first_partition`: skip all-zero entries, otherwise keep the
smaller of the entry LBA start (bytes 8-11, little-endian) and the
running minimum. -/
def mbrFoldStep (lowest_starting_sector : Nat) (entry_buf : List Nat) : Nat :=
  if isNonEmptyEntry entry_buf then
    if leU32 (readBytes entry_buf 8 4) < lowest_starting_sector then
      leU32 (readBytes entry_buf 8 4)
    else
      lowest_starting_sector
  else
    lowest_starting_sector

/-- Embedding of `find_mbr_first_partition`: check the two boot-signature
bytes at 0x1fe, then fold the four partition entries starting from the
sentinel 0xffffffff and multiply the result by the sector size.  Note the
source returns this product even when every entry was empty. -/
def find_mbr_first_partition (stream : List Nat) (sector_size : Nat) : Option Nat :=
  if readBytes stream 0x1fe 2 ≠ [0x55, 0xaa] then
    none
  else
    some (sector_size * (mbrEntries stream).foldl mbrFoldStep 0xffffffff)

/-- Embedding of `ImageKind`. -/
inductive ImageKind where
  | MLO
  | UBOOT
  deriving DecidableEq, Repr

/-- Embedding of the `FirmwareImage` value: device (or file) path, byte
offset, kind, and size. -/
structure FirmwareImage where
  device : String
  offset : Nat
  kind : ImageKind
  size : Nat
  deriving DecidableEq, Repr

/-- Embedding of `FirmwareImage.__matmul__` with an `int` argument: a
negative offset raises `ValueError`, otherwise a fresh instance with the
new offset and the same device, kind and size is returned. -/
def FirmwareImage.matmulInt (img : FirmwareImage) (new_offset : Int) :
    Except String FirmwareImage :=
  if new_offset < 0 then
    Except.error ("The new offset must be greater than 0")
  else
    Except.ok ⟨img.device, new_offset.toNat, img.kind, img.size⟩

/-- Embedding of `FirmwareImage.__matmul__` with a `FirmwareImage`
argument: rebase to the other image's offset. -/
def FirmwareImage.matmulImage (img other : FirmwareImage) : FirmwareImage :=
  ⟨img.device, other.offset, img.kind, img.size⟩

/-- Embedding of `FirmwareImage.__ge__` against an integer: compares the
end of the image's byte range against the given offset. -/
def FirmwareImage.geInt (img : FirmwareImage) (n : Nat) : Bool :=
  decide (img.offset + img.size ≥ n)

/-- Embedding of `FirmwareImage.hexdigest`: the hash of the image's byte
range, read from its device.  `sha256hex` stands for the external
SHA-256 and `contents` maps each path to the bytes stored there. -/
def FirmwareImage.hexdigest (sha256hex : List Nat → String)
    (contents : String → List Nat) (img : FirmwareImage) : String :=
  sha256hex (readBytes (contents img.device) img.offset img.size)

/-- The fixed probe offsets of `find_images`. -/
def probe_offsets : List Nat := [0, 0x20000, 0x40000, 0x60000]

/-- Embedding of `find_images`: at each probe offset run the three
detectors in order; every success becomes a discovered image, the TOC
detector yielding kind MLO and the other two kind UBOOT. -/
def find_images (sha256hex : List Nat → String)
    (decode : List Nat → Option (List FitImage))
    (device_path : String) (device_bytes : List Nat) : List FirmwareImage :=
  probe_offsets.flatMap (fun offset =>
    let stream := device_bytes.drop offset
    (match get_mlo_toc_size sha256hex stream with
      | Except.ok n => [⟨device_path, offset, ImageKind.MLO, n⟩]
      | Except.error _ => []) ++
    (match get_u_boot_legacy_size stream with
      | Except.ok n => [⟨device_path, offset, ImageKind.UBOOT, n⟩]
      | Except.error _ => []) ++
    (match get_u_boot_fit_size decode stream with
      | Except.ok n => [⟨device_path, offset, ImageKind.UBOOT, n⟩]
      | Except.error _ => []))

/-- The replacement image the planner pairs with a discovered image of a
given kind (`if image.kind is ImageKind.MLO ... elif ... UBOOT`). -/
def replacementFor (new_mlo new_u_boot : FirmwareImage) : ImageKind → FirmwareImage
  | ImageKind.MLO => new_mlo
  | ImageKind.UBOOT => new_u_boot

/-- The loop body of `compare_images` deciding one discovered image: an
image at offset 0 would overlap the MBR and is skipped, a rebased
replacement that reaches or crosses the partition boundary is skipped,
and otherwise the image needs an update exactly when the content hashes
differ. -/
def updateNeeded (sha256hex : List Nat → String) (contents : String → List Nat)
    (new_mlo new_u_boot : FirmwareImage) (lowest_partition_start : Nat)
    (image : FirmwareImage) : Bool :=
  if image.offset = 0 then false
  else
    if ((replacementFor new_mlo new_u_boot image.kind).matmulImage image).geInt
        lowest_partition_start then
      false
    else
      decide (FirmwareImage.hexdigest sha256hex contents
          (replacementFor new_mlo new_u_boot image.kind) ≠
        FirmwareImage.hexdigest sha256hex contents image)

/-- Embedding of `compare_images`: per device, resolve the sector size and
partition boundary (skipping the device when there is no MBR), discover
the images, and keep the ones `updateNeeded` accepts. -/
def compare_images (sha256hex : List Nat → String)
    (decode : List Nat → Option (List FitImage))
    (block_size : String → Nat) (contents : String → List Nat)
    (new_mlo new_u_boot : FirmwareImage)
    (device_paths : List String) : List FirmwareImage :=
  device_paths.flatMap (fun device_path =>
    match find_mbr_first_partition (contents device_path) (block_size device_path) with
    | none => []
    | some lowest_partition_start =>
      (find_images sha256hex decode device_path (contents device_path)).filter
        (updateNeeded sha256hex contents new_mlo new_u_boot lowest_partition_start))

/-- Observable I/O actions of `copy_raw`, in program order. -/
inductive IOEvent where
  | sendfile (n : Nat)
  | fsync
  | close
  deriving DecidableEq, Repr

/-- Embedding of `copy_raw`: transfer `size` bytes from the source's
offset to the destination's offset in one `sendfile` call (which writes
the bytes that actually exist at the source range), assert the written
count equals `size`, `fsync` only when the assertion passed (the
`else` clause of the `try`), and `close` in every case (the `finally`
clause).  The second component records the I/O actions in order. -/
def copy_raw (source dest : List Nat) (source_offset dest_offset size : Nat) :
    Except String (List Nat) × List IOEvent :=
  let data := readBytes source source_offset size
  let write_size := data.length
  let new_dest := writeBytes dest dest_offset data
  if write_size = size then
    (Except.ok new_dest, [IOEvent.sendfile write_size, IOEvent.fsync, IOEvent.close])
  else
    (Except.error ("assert write_size == source_image.size"),
      [IOEvent.sendfile write_size, IOEvent.close])

/-- Helper: reads that stay inside the left part of an append only see the
left part. -/
theorem readBytes_append_left (l r : List Nat) (off n : Nat) (h : off + n ≤ l.length) :
    readBytes (l ++ r) off n = readBytes l off n := by
  unfold readBytes
  rw [List.drop_append_eq_append_drop, List.take_append_eq_append_take]
  have hoff : off ≤ l.length := le_trans (Nat.le_add_right off n) h
  have hdrop : n ≤ (List.drop off l).length := by
    rw [List.length_drop]
    omega
  rw [Nat.sub_eq_zero_of_le hdrop, Nat.sub_eq_zero_of_le hoff]
  simp

/-- Helper: a read of an exact-length list from offset 0 returns it. -/
theorem readBytes_all (l : List Nat) (n : Nat) (h : l.length = n) :
    readBytes l 0 n = l := by
  unfold readBytes
  rw [List.drop_zero, ← h, List.take_length]

/-- C5 theorem: on a stream holding the full 516-byte header region (the
512-byte TOC and the 4 trailer bytes, so the source's
`struct.unpack_from` cannot raise on a short buffer), the TOC detector
fails exactly when the hash of the first 512 bytes is not the fixed
known-good digest; on a match it returns the little-endian u32 after the
TOC plus 512, and in particular a matching 512-byte TOC followed by the
little-endian encoding of 100000 yields 100512. -/
theorem get_mlo_toc_size_spec (sha256hex : List Nat → String) (stream : List Nat)
    (_hlen : 516 ≤ stream.length) :
    ((∃ e, get_mlo_toc_size sha256hex stream = Except.error e) ↔
      sha256hex (readBytes stream 0 512) ≠ mlo_toc_expected_hash) ∧
    (sha256hex (readBytes stream 0 512) = mlo_toc_expected_hash →
      get_mlo_toc_size sha256hex stream =
        Except.ok (leU32 (readBytes stream 512 4) + 512)) ∧
    (∀ toc : List Nat, toc.length = 512 →
      sha256hex toc = mlo_toc_expected_hash →
      get_mlo_toc_size sha256hex (toc ++ [160, 134, 1, 0]) = Except.ok 100512) := by
  have hok : sha256hex (readBytes stream 0 512) = mlo_toc_expected_hash →
      get_mlo_toc_size sha256hex stream =
        Except.ok (leU32 (readBytes stream 512 4) + 512) := by
    intro hhash
    simp only [get_mlo_toc_size]
    rw [if_neg (by simp [hhash])]
  refine ⟨⟨?_, ?_⟩, hok, ?_⟩
  · rintro ⟨e, he⟩ hhash
    rw [hok hhash] at he
    exact Except.noConfusion he
  · intro hhash
    refine ⟨ImageError.invalidFirmware ("TOC hash did not match"), ?_⟩
    simp only [get_mlo_toc_size]
    rw [if_pos hhash]
  · intro toc hlen hhash
    have h1 : readBytes (toc ++ [160, 134, 1, 0]) 0 512 = toc := by
      unfold readBytes
      rw [List.drop_zero, List.take_left' hlen]
    have h2 : readBytes (toc ++ [160, 134, 1, 0]) 512 4 = [160, 134, 1, 0] := by
      unfold readBytes
      rw [List.drop_left' hlen]
      rfl
    simp only [get_mlo_toc_size]
    rw [h1, h2, if_neg (by simp [hhash])]
    rfl

/-- Witness hash function for the TOC detector theorem: maps one chosen
512-byte block to the known-good digest. -/
def c5sha : List Nat → String := fun bs =>
  if bs = List.replicate 512 7 then mlo_toc_expected_hash else ("no-match")

/-- C5 witness: the theorem applied at a concrete hash function and a
concrete 516-byte stream. -/
theorem get_mlo_toc_size_spec_witness :
    get_mlo_toc_size c5sha (List.replicate 512 7 ++ [160, 134, 1, 0]) = Except.ok 100512 :=
  (get_mlo_toc_size_spec c5sha (List.replicate 512 7 ++ [160, 134, 1, 0])
      (by simp)).2.2
    (List.replicate 512 7) (by simp) (by simp [c5sha])

/-- C6 theorem: on a 64-byte header the legacy detector raises the
format-mismatch error exactly when field 0 (bytes 0-3, big-endian) is not
0x27051956; with the magic matched it raises the wrong-role error exactly
when field 7 (byte 28) is not 17 or field 9 (byte 30) is not 5; otherwise
it returns field 3 (bytes 12-15, big-endian) plus the 64-byte header
length. -/
theorem get_u_boot_legacy_size_spec (header : List Nat) (hlen : header.length = 64) :
    ((∃ m, get_u_boot_legacy_size header = Except.error (ImageError.invalidFirmware m)) ↔
      beU32 (readBytes header 0 4) ≠ 0x27051956) ∧
    (beU32 (readBytes header 0 4) = 0x27051956 →
      ((∃ m, get_u_boot_legacy_size header = Except.error (ImageError.invalidUBoot m)) ↔
        (byteAt header 28 ≠ 17 ∨ byteAt header 30 ≠ 5))) ∧
    (beU32 (readBytes header 0 4) = 0x27051956 → byteAt header 28 = 17 →
      byteAt header 30 = 5 →
      get_u_boot_legacy_size header = Except.ok (beU32 (readBytes header 12 4) + 64)) := by
  have hall : readBytes header 0 64 = header := readBytes_all header 64 hlen
  simp only [get_u_boot_legacy_size, hall]
  by_cases hmagic : beU32 (readBytes header 0 4) = 0x27051956
  · rw [if_neg (by simp [hmagic])]
    by_cases hos : byteAt header 28 = 17
    · rw [if_neg (by simp [hos])]
      by_cases htype : byteAt header 30 = 5
      · rw [if_neg (by simp [htype])]
        refine ⟨⟨?_, ?_⟩, fun _ => ⟨?_, ?_⟩, fun _ _ _ => rfl⟩
        · rintro ⟨m, hm⟩
          exact absurd hm (by simp)
        · intro h
          exact absurd hmagic h
        · rintro ⟨m, hm⟩
          exact absurd hm (by simp)
        · rintro (h | h)
          · exact absurd hos h
          · exact absurd htype h
      · rw [if_pos htype]
        refine ⟨⟨?_, ?_⟩, fun _ => ⟨fun _ => Or.inr htype, fun _ => ⟨_, rfl⟩⟩,
          fun _ _ h => absurd h htype⟩
        · rintro ⟨m, hm⟩
          exact absurd hm (by simp)
        · intro h
          exact absurd hmagic h
    · rw [if_pos hos]
      refine ⟨⟨?_, ?_⟩, fun _ => ⟨fun _ => Or.inl hos, fun _ => ⟨_, rfl⟩⟩,
        fun _ h => absurd h hos⟩
      · rintro ⟨m, hm⟩
        exact absurd hm (by simp)
      · intro h
        exact absurd hmagic h
  · rw [if_pos hmagic]
    exact ⟨⟨fun _ => hmagic, fun _ => ⟨_, rfl⟩⟩,
      fun h => absurd h hmagic, fun h => absurd h hmagic⟩

/-- Concrete 64-byte legacy header: magic 0x27051956, data size 204800
(bytes 12-15 big-endian), OS 17 at byte 28, image type 5 at byte 30. -/
def legacy_header_example : List Nat :=
  [0x27, 0x05, 0x19, 0x56] ++ [0, 0, 0, 0] ++ [0, 0, 0, 0] ++ [0, 3, 32, 0] ++
    List.replicate 12 0 ++ [17, 0, 5, 0] ++ List.replicate 32 0

/-- C6 witness: the theorem applied at the concrete header yields size
204864. -/
theorem get_u_boot_legacy_size_spec_witness :
    get_u_boot_legacy_size legacy_header_example = Except.ok 204864 := by
  have h := (get_u_boot_legacy_size_spec legacy_header_example (by decide)).2.2
    (by decide) (by decide) (by decide)
  rw [h]
  decide

/-- C9 theorem: rebasing a firmware image to a non-negative offset X
returns a fresh value with offset X and the original device, kind and
size (the original, being a pure value, is untouched), and rebasing that
result to X again returns the same value. -/
theorem firmware_image_rebase_idempotent (I : FirmwareImage) (X : Nat) :
    I.matmulInt (X : Int) = Except.ok ⟨I.device, X, I.kind, I.size⟩ ∧
    (FirmwareImage.mk I.device X I.kind I.size).matmulInt (X : Int) =
      Except.ok ⟨I.device, X, I.kind, I.size⟩ := by
  constructor <;>
    simp [FirmwareImage.matmulInt, Int.toNat_natCast]

/-- C10 theorem: rebasing with an integer argument raises `ValueError`
exactly when the argument is negative; any non-negative argument succeeds
regardless of the image's device, size or surroundings (no extent or
boundary check), and rebasing to 0 in particular returns an image with
offset 0. -/
theorem firmware_image_rebase_negative_iff (I : FirmwareImage) (z : Int) :
    ((∃ e, I.matmulInt z = Except.error e) ↔ z < 0) ∧
    (0 ≤ z → I.matmulInt z = Except.ok ⟨I.device, z.toNat, I.kind, I.size⟩) ∧
    I.matmulInt 0 = Except.ok ⟨I.device, 0, I.kind, I.size⟩ := by
  refine ⟨⟨?_, ?_⟩, ?_, ?_⟩
  · rintro ⟨e, he⟩
    by_contra hpos
    simp only [FirmwareImage.matmulInt, if_neg hpos] at he
    exact Except.noConfusion he
  · intro hneg
    exact ⟨"The new offset must be greater than 0",
      by simp only [FirmwareImage.matmulInt, if_pos hneg]⟩
  · intro hpos
    simp only [FirmwareImage.matmulInt, if_neg (not_lt.mpr hpos)]
  · simp [FirmwareImage.matmulInt]

/-- C10 witness: the theorem applied at a concrete image, with a negative
and a zero offset. -/
theorem firmware_image_rebase_negative_iff_witness :
    (∃ e, (FirmwareImage.mk ("mmcblk0") 5 ImageKind.MLO 10).matmulInt (-1) =
      Except.error e) ∧
    (FirmwareImage.mk ("mmcblk0") 5 ImageKind.MLO 10).matmulInt 0 =
      Except.ok ⟨("mmcblk0"), 0, ImageKind.MLO, 10⟩ :=
  ⟨(firmware_image_rebase_negative_iff ⟨("mmcblk0"), 5, ImageKind.MLO, 10⟩ (-1)).1.mpr
      (by decide),
    (firmware_image_rebase_negative_iff ⟨("mmcblk0"), 5, ImageKind.MLO, 10⟩ 0).2.2⟩

/-- Concrete 512-byte stream whose boot signature at 0x1fe is valid and
whose four partition entries are all zero. -/
def mbr_all_empty_stream : List Nat := List.replicate 510 0 ++ [0x55, 0xaa]

/-- C1 theorem: on a stream with a valid boot signature and four all-zero
partition entries, `find_mbr_first_partition` does not return the
explicit no-boundary value `none` (which its own docstring promises for
"no partitions are found"): it returns the sector size times the
sentinel maximum 0xffffffff. -/
theorem find_mbr_all_empty_returns_sentinel :
    find_mbr_first_partition mbr_all_empty_stream 512 = some (512 * 0xffffffff) ∧
    find_mbr_first_partition mbr_all_empty_stream 512 ≠ none := by
  constructor <;> decide


/-- Modelled from the spec wording: the little-endian LBA starting
sectors of the non-empty (not all-zero) partition entries, in entry
order. -/
def lbasOfList (l : List (List Nat)) : List Nat :=
  (l.filter isNonEmptyEntry).map (fun e => leU32 (readBytes e 8 4))

/-- Modelled from the spec wording: the LBA starts of the non-empty
partition entries of a stream. -/
def mbrNonEmptyLBAStarts (stream : List Nat) : List Nat :=
  lbasOfList (mbrEntries stream)

/-- Helper: every byte of a read is a byte of the stream. -/
theorem mem_of_mem_readBytes {b : Nat} {l : List Nat} {off n : Nat}
    (h : b ∈ readBytes l off n) : b ∈ l :=
  List.drop_subset off l (List.take_subset n (l.drop off) h)

/-- Helper: indexing a buffer of bytes below 256 stays below 256. -/
theorem byteAt_lt_256 (bs : List Nat) (h : ∀ b ∈ bs, b < 256) (i : Nat) :
    byteAt bs i < 256 := by
  unfold byteAt
  rw [List.getD_eq_getElem?_getD]
  cases hg : bs[i]? with
  | none => simp
  | some b =>
    simp only [Option.getD_some]
    exact h b (List.getElem?_mem hg)

/-- Helper: a little-endian u32 of bytes below 256 never exceeds the
sentinel 0xffffffff. -/
theorem leU32_le_sentinel (bs : List Nat) (h : ∀ b ∈ bs, b < 256) :
    leU32 bs ≤ 0xffffffff := by
  have h0 := byteAt_lt_256 bs h 0
  have h1 := byteAt_lt_256 bs h 1
  have h2 := byteAt_lt_256 bs h 2
  have h3 := byteAt_lt_256 bs h 3
  unfold leU32
  omega

/-- Helper: the partition-entry fold either keeps its accumulator (and
then the accumulator bounds every non-empty LBA from below) or lands on a
non-empty LBA that is a lower bound of all of them. -/
theorem mbr_fold_min (l : List (List Nat)) (a : Nat) :
    (l.foldl mbrFoldStep a = a ∧ ∀ x ∈ lbasOfList l, a ≤ x) ∨
    (l.foldl mbrFoldStep a ∈ lbasOfList l ∧ l.foldl mbrFoldStep a ≤ a ∧
      ∀ x ∈ lbasOfList l, l.foldl mbrFoldStep a ≤ x) := by
  induction l generalizing a with
  | nil =>
    left
    exact ⟨rfl, by simp [lbasOfList]⟩
  | cons e rest ih =>
    by_cases hne : isNonEmptyEntry e = true
    · have hlbas : lbasOfList (e :: rest) =
          leU32 (readBytes e 8 4) :: lbasOfList rest := by
        unfold lbasOfList
        rw [List.filter_cons_of_pos hne, List.map_cons]
      by_cases hlt : leU32 (readBytes e 8 4) < a
      · have hstep : mbrFoldStep a e = leU32 (readBytes e 8 4) := by
          unfold mbrFoldStep
          rw [if_pos hne, if_pos hlt]
        rw [List.foldl_cons, hstep, hlbas]
        rcases ih (leU32 (readBytes e 8 4)) with ⟨h1, h2⟩ | ⟨h1, h2, h3⟩
        · right
          rw [h1]
          refine ⟨List.mem_cons_self _ _, le_of_lt hlt, ?_⟩
          intro x hx
          rcases List.mem_cons.mp hx with hx | hx
          · exact le_of_eq hx.symm
          · exact h2 x hx
        · right
          refine ⟨List.mem_cons_of_mem _ h1, le_trans h2 (le_of_lt hlt), ?_⟩
          intro x hx
          rcases List.mem_cons.mp hx with hx | hx
          · exact hx ▸ h2
          · exact h3 x hx
      · have hstep : mbrFoldStep a e = a := by
          unfold mbrFoldStep
          rw [if_pos hne, if_neg hlt]
        rw [List.foldl_cons, hstep, hlbas]
        rcases ih a with ⟨h1, h2⟩ | ⟨h1, h2, h3⟩
        · left
          refine ⟨h1, ?_⟩
          intro x hx
          rcases List.mem_cons.mp hx with hx | hx
          · exact hx ▸ not_lt.mp hlt
          · exact h2 x hx
        · right
          refine ⟨List.mem_cons_of_mem _ h1, h2, ?_⟩
          intro x hx
          rcases List.mem_cons.mp hx with hx | hx
          · exact hx ▸ le_trans h2 (not_lt.mp hlt)
          · exact h3 x hx
    · have hstep : mbrFoldStep a e = a := by
        unfold mbrFoldStep
        rw [if_neg hne]
      have hlbas : lbasOfList (e :: rest) = lbasOfList rest := by
        unfold lbasOfList
        rw [List.filter_cons_of_neg hne]
      rw [List.foldl_cons, hstep, hlbas]
      exact ih a

/-- C8 theorem: the scanner returns `none` whenever the two bytes at
0x1fe are not the boot signature, whatever the entries hold; when the
signature matches and some entry is non-empty, it returns the sector
size times the minimum LBA start over the non-empty entries. -/
theorem find_mbr_first_partition_spec (stream : List Nat) (sector_size : Nat)
    (_hlen : 512 ≤ stream.length) (hbytes : ∀ b ∈ stream, b < 256) :
    (readBytes stream 0x1fe 2 ≠ [0x55, 0xaa] →
      find_mbr_first_partition stream sector_size = none) ∧
    (readBytes stream 0x1fe 2 = [0x55, 0xaa] →
      mbrNonEmptyLBAStarts stream ≠ [] →
      ∃ m, find_mbr_first_partition stream sector_size = some (sector_size * m) ∧
        m ∈ mbrNonEmptyLBAStarts stream ∧
        ∀ x ∈ mbrNonEmptyLBAStarts stream, m ≤ x) := by
  constructor
  · intro hsig
    unfold find_mbr_first_partition
    rw [if_pos hsig]
  · intro hsig hne
    have hbound : ∀ x ∈ mbrNonEmptyLBAStarts stream, x ≤ 0xffffffff := by
      intro x hx
      unfold mbrNonEmptyLBAStarts lbasOfList at hx
      rcases List.mem_map.mp hx with ⟨e, he, hxe⟩
      have he' : e ∈ mbrEntries stream := List.mem_of_mem_filter he
      have hbe : ∀ b ∈ e, b < 256 := by
        intro b hb
        unfold mbrEntries at he'
        rcases List.mem_map.mp he' with ⟨i, _, hei⟩
        exact hbytes b (mem_of_mem_readBytes (hei ▸ hb))
      have hle := leU32_le_sentinel (readBytes e 8 4)
        (fun b hb => hbe b (mem_of_mem_readBytes hb))
      exact hxe ▸ hle
    have heq : find_mbr_first_partition stream sector_size =
        some (sector_size * (mbrEntries stream).foldl mbrFoldStep 0xffffffff) := by
      unfold find_mbr_first_partition
      rw [if_neg (by simp [hsig])]
    rcases mbr_fold_min (mbrEntries stream) 0xffffffff with ⟨h1, h2⟩ | ⟨h1, h2, h3⟩
    · rcases List.exists_mem_of_ne_nil _ hne with ⟨x0, hx0⟩
      have hx0le : x0 ≤ 0xffffffff := hbound x0 hx0
      have hx0ge : 0xffffffff ≤ x0 := h2 x0 hx0
      have hx0eq : x0 = 0xffffffff := le_antisymm hx0le hx0ge
      refine ⟨0xffffffff, ?_, hx0eq ▸ hx0, h2⟩
      rw [heq, h1]
    · exact ⟨_, heq, h1, h3⟩

/-- One non-empty partition entry: bootable flag set, type 0x0c, LBA
start 2048 (bytes 8-11 little-endian), 2048 sectors. -/
def mbr_part_entry : List Nat :=
  [0x80, 0, 0, 0, 0x0c, 0, 0, 0, 0, 8, 0, 0, 0, 8, 0, 0]

/-- Concrete 512-byte boot sector: one non-empty partition entry at
0x1be with LBA start 2048, valid boot signature at 0x1fe. -/
def mbr_block512 : List Nat :=
  List.replicate 446 0 ++ mbr_part_entry ++ List.replicate 48 0 ++ [0x55, 0xaa]

/-- C8 witness: the theorem applied to the concrete boot sector with
512-byte sectors; the boundary is 512 * 2048 = 1048576. -/
theorem find_mbr_first_partition_spec_witness :
    (∃ m, find_mbr_first_partition mbr_block512 512 = some (512 * m) ∧
      m ∈ mbrNonEmptyLBAStarts mbr_block512 ∧
      ∀ x ∈ mbrNonEmptyLBAStarts mbr_block512, m ≤ x) ∧
    find_mbr_first_partition mbr_block512 512 = some 1048576 :=
  ⟨(find_mbr_first_partition_spec mbr_block512 512 (by decide) (by decide)).2
      (by decide) (by decide),
    by decide⟩

/-- Helper: the length of a read is capped by the bytes available. -/
theorem readBytes_length (l : List Nat) (off n : Nat) :
    (readBytes l off n).length = min n (l.length - off) := by
  simp [readBytes]

/-- Helper: overwriting a range strictly inside the destination keeps its
length. -/
theorem writeBytes_length (dest : List Nat) (off : Nat) (bs : List Nat)
    (h : off + bs.length ≤ dest.length) :
    (writeBytes dest off bs).length = dest.length := by
  simp only [writeBytes, List.length_append, List.length_take, List.length_drop]
  omega

/-- Helper: reading back an overwritten in-bounds range returns exactly
the bytes written. -/
theorem readBytes_writeBytes (dest : List Nat) (off : Nat) (bs : List Nat)
    (h : off + bs.length ≤ dest.length) :
    readBytes (writeBytes dest off bs) off bs.length = bs := by
  unfold readBytes writeBytes
  have htake : (dest.take off).length = off := by
    rw [List.length_take]
    omega
  rw [List.append_assoc, List.drop_left' htake, List.take_left]

/-- C4 theorem: with the destination range in bounds, a full source range
makes `copy_raw` transfer exactly `size` bytes, leave destination bytes
`[dest_offset, dest_offset+size)` equal to the source bytes at
`[source_offset, source_offset+size)` while preserving the destination
length, and return success with the event trace sendfile-fsync-close
(the fsync strictly before the successful return); a source range that is
too short makes the single transfer come up short, which fails the
assertion: the result is an error, the trace holds one sendfile and no
fsync, and nothing is retried. -/
theorem copy_raw_transfers_and_syncs (source dest : List Nat)
    (source_offset dest_offset size : Nat)
    (hdest : dest_offset + size ≤ dest.length) :
    (source_offset + size ≤ source.length →
      copy_raw source dest source_offset dest_offset size =
        (Except.ok (writeBytes dest dest_offset (readBytes source source_offset size)),
          [IOEvent.sendfile size, IOEvent.fsync, IOEvent.close]) ∧
      readBytes (writeBytes dest dest_offset (readBytes source source_offset size))
          dest_offset size =
        readBytes source source_offset size ∧
      (writeBytes dest dest_offset (readBytes source source_offset size)).length =
        dest.length) ∧
    (source.length < source_offset + size → 0 < size →
      ∃ w, w < size ∧
        copy_raw source dest source_offset dest_offset size =
          (Except.error ("assert write_size == source_image.size"),
            [IOEvent.sendfile w, IOEvent.close])) := by
  constructor
  · intro hsrc
    have hdata : (readBytes source source_offset size).length = size := by
      rw [readBytes_length]
      omega
    refine ⟨?_, ?_, ?_⟩
    · simp only [copy_raw]
      rw [if_pos hdata, hdata]
    · have h := readBytes_writeBytes dest dest_offset
        (readBytes source source_offset size) (by rw [hdata]; exact hdest)
      rw [hdata] at h
      exact h
    · exact writeBytes_length dest dest_offset _ (by rw [hdata]; exact hdest)
  · intro hshort hpos
    have hdata : (readBytes source source_offset size).length < size := by
      rw [readBytes_length]
      omega
    refine ⟨(readBytes source source_offset size).length, hdata, ?_⟩
    simp only [copy_raw]
    rw [if_neg (Nat.ne_of_lt hdata)]

/-- C4 witness: the theorem applied to a concrete full copy and a
concrete short copy. -/
theorem copy_raw_transfers_and_syncs_witness :
    (copy_raw [1, 2, 3, 4] [9, 9, 9, 9, 9] 1 2 2 =
      (Except.ok (writeBytes [9, 9, 9, 9, 9] 2 (readBytes [1, 2, 3, 4] 1 2)),
        [IOEvent.sendfile 2, IOEvent.fsync, IOEvent.close]) ∧
      readBytes (writeBytes [9, 9, 9, 9, 9] 2 (readBytes [1, 2, 3, 4] 1 2)) 2 2 =
        readBytes [1, 2, 3, 4] 1 2 ∧
      (writeBytes [9, 9, 9, 9, 9] 2 (readBytes [1, 2, 3, 4] 1 2)).length = 5) ∧
    (∃ w, w < 3 ∧
      copy_raw [1, 2] [9, 9, 9, 9, 9] 1 2 3 =
        (Except.error ("assert write_size == source_image.size"),
          [IOEvent.sendfile w, IOEvent.close])) :=
  ⟨(copy_raw_transfers_and_syncs [1, 2, 3, 4] [9, 9, 9, 9, 9] 1 2 2 (by decide)).1
      (by decide),
    (copy_raw_transfers_and_syncs [1, 2] [9, 9, 9, 9, 9] 1 2 3 (by decide)).2
      (by decide) (by decide)⟩

/-- One step of the FIT largest-offset scan: with both keys present,
replace the pair when the entry offset strictly exceeds the current one;
an entry with a missing key contributes nothing (the loop itself errors
out in that case, see `fitLoop`). -/
def fitFoldStep (acc : Nat × Nat) (image : FitImage) : Nat × Nat :=
  match image.data_offset, image.data_size with
  | some o, some s => if acc.1 < o then (o, s) else acc
  | _, _ => acc

/-- The offset/size pair the FIT detector actually bases its size on:
starting from (0, 0), an entry replaces the pair only when its
data-offset strictly exceeds the current offset. -/
def largestOffsetPair (images : List FitImage) : Nat × Nat :=
  images.foldl fitFoldStep (0, 0)

/-- Helper: a successful FIT image walk computes the fold of
`fitFoldStep` over the entries. -/
theorem fitLoop_ok_pair (images : List FitImage) :
    ∀ (a b : Nat) (f : Bool) (x y : Nat) (g : Bool),
    fitLoop images a b f = Except.ok (x, y, g) →
    (x, y) = images.foldl fitFoldStep (a, b) := by
  induction images with
  | nil =>
    intro a b f x y g h
    simp only [fitLoop, Except.ok.injEq, Prod.mk.injEq] at h
    obtain ⟨h1, h2, _⟩ := h
    subst h1
    subst h2
    simp
  | cons image rest ih =>
    intro a b f x y g h
    cases ho : image.data_offset with
    | none =>
      simp only [fitLoop, ho] at h
      exact Except.noConfusion h
    | some o =>
      cases hs : image.data_size with
      | none =>
        simp only [fitLoop, ho, hs] at h
        exact Except.noConfusion h
      | some s =>
        have hstep : fitFoldStep (a, b) image = if a < o then (o, s) else (a, b) := by
          simp [fitFoldStep, ho, hs]
        rw [List.foldl_cons, hstep]
        by_cases hlt : a < o
        · simp only [fitLoop, ho, hs, if_pos hlt] at h
          rw [if_pos hlt]
          exact ih o s _ x y g h
        · simp only [fitLoop, ho, hs, if_neg hlt] at h
          rw [if_neg hlt]
          exact ih a b _ x y g h

/-- C7 amended theorem: whenever the FIT detector accepts a stream whose
blob decodes to `images`, the returned size is the blob length rounded up
to 4 plus (offset + size) of `largestOffsetPair images` rounded up to 4 -
the pair obtained by scanning the entries from (0, 0) and replacing only
on a strictly larger data-offset, so an entry whose data-offset is 0
never contributes its size. -/
theorem get_u_boot_fit_size_accepted_formula
    (decode : List Nat → Option (List FitImage)) (stream : List Nat)
    (images : List FitImage) (n : Nat)
    (hdec : decode (readBytes stream 0 (beU32 (readBytes stream 4 4))) = some images)
    (hok : get_u_boot_fit_size decode stream = Except.ok n) :
    n = align_up (beU32 (readBytes stream 4 4)) 4 +
      align_up ((largestOffsetPair images).1 + (largestOffsetPair images).2) 4 := by
  simp only [get_u_boot_fit_size] at hok
  by_cases hmagic : beU32 (readBytes stream 0 4) = 0xd00dfeed
  · rw [if_neg (by simp [hmagic])] at hok
    simp only [hdec] at hok
    cases hfit : fitLoop images 0 0 false with
    | error e =>
      simp only [hfit] at hok
      exact Except.noConfusion hok
    | ok t =>
      obtain ⟨x, y, g⟩ := t
      simp only [hfit] at hok
      cases g with
      | false =>
        simp at hok
      | true =>
        simp only [if_true, Except.ok.injEq] at hok
        have hpair := fitLoop_ok_pair images 0 0 false x y true hfit
        unfold largestOffsetPair
        rw [← hpair]
        exact hok.symm
  · rw [if_pos hmagic] at hok
    exact Except.noConfusion hok

/-- A FIT sub-image whose data-offset is 0: per the spec it is "the entry
with the largest data-offset" when it is the only entry. -/
def fit_zero_offset_image : FitImage :=
  ⟨some 0, some 100, some ("firmware"), some ("u-boot")⟩

/-- Decoding collaborator that yields exactly the one zero-offset U-Boot
firmware sub-image. -/
def fit_decode0 : List Nat → Option (List FitImage) := fun _ => some [fit_zero_offset_image]

/-- Concrete 8-byte FIT header: FDT magic and blob length 200. -/
def fit_stream0 : List Nat := [0xd0, 0x0d, 0xfe, 0xed, 0, 0, 0, 200]

/-- C7 counterexample: the detector accepts this container, the only
sub-image (type firmware, os u-boot) has data-offset 0 and data-size 100,
so the claimed formula round_up(200, 4) + round_up(0 + 100, 4) predicts
300 - but the detector returns 200, never adding the size of the
zero-offset entry. -/
theorem fit_size_zero_offset_counterexample :
    get_u_boot_fit_size fit_decode0 fit_stream0 = Except.ok 200 ∧
    fit_zero_offset_image.data_offset = some 0 ∧
    fit_zero_offset_image.data_size = some 100 ∧
    fit_zero_offset_image.image_type = some ("firmware") ∧
    fit_zero_offset_image.image_os = some ("u-boot") ∧
    beU32 (readBytes fit_stream0 4 4) = 200 ∧
    align_up 200 4 + align_up (0 + 100) 4 = 300 ∧
    (200 : Nat) ≠ 300 := by
  refine ⟨by decide, rfl, rfl, rfl, rfl, by decide, by decide, by decide⟩

/-- C7 witness: the amended theorem applied to the concrete container
above; the pair is (0, 0), so the formula gives 200. -/
theorem get_u_boot_fit_size_accepted_formula_witness :
    (200 : Nat) = align_up (beU32 (readBytes fit_stream0 4 4)) 4 +
      align_up ((largestOffsetPair [fit_zero_offset_image]).1 +
        (largestOffsetPair [fit_zero_offset_image]).2) 4 :=
  get_u_boot_fit_size_accepted_formula fit_decode0 fit_stream0 [fit_zero_offset_image] 200
    (by decide) (by decide)

/-- C3 theorem: on a device whose boundary resolved to `boundary`, a
discovered image with non-zero offset ends up in the update list exactly
when the same-kind replacement, rebased to the image offset, ends
strictly below the boundary and the content hashes differ.  The
characterisation holds for each discovered image independently, so one
image being rejected for overlap never stops the others from being
evaluated. -/
theorem compare_images_update_membership
    (sha256hex : List Nat → String) (decode : List Nat → Option (List FitImage))
    (block_size : String → Nat) (contents : String → List Nat)
    (new_mlo new_u_boot : FirmwareImage) (device_path : String) (boundary : Nat)
    (image : FirmwareImage)
    (hb : find_mbr_first_partition (contents device_path) (block_size device_path) =
      some boundary)
    (hi : image ∈ find_images sha256hex decode device_path (contents device_path))
    (h0 : image.offset ≠ 0) :
    image ∈ compare_images sha256hex decode block_size contents new_mlo new_u_boot
        [device_path] ↔
      (image.offset + (replacementFor new_mlo new_u_boot image.kind).size < boundary ∧
        FirmwareImage.hexdigest sha256hex contents
            (replacementFor new_mlo new_u_boot image.kind) ≠
          FirmwareImage.hexdigest sha256hex contents image) := by
  unfold compare_images
  simp only [List.flatMap_cons, List.flatMap_nil, List.append_nil, hb]
  rw [List.mem_filter]
  simp only [hi, true_and, updateNeeded, if_neg h0, FirmwareImage.geInt,
    FirmwareImage.matmulImage]
  by_cases hge : image.offset + (replacementFor new_mlo new_u_boot image.kind).size ≥
      boundary
  · rw [if_pos (by simpa using hge)]
    simp [not_lt.mpr hge]
  · rw [if_neg (by simpa using hge)]
    simp [lt_of_not_ge hge]

/-- Witness hash collaborator for the membership theorem: every buffer
hashes to the known-good TOC digest, so the MLO detector accepts every
probe offset and all content hashes agree. -/
def c3sha : List Nat → String := fun _ => mlo_toc_expected_hash

/-- Witness contents: every path holds the concrete boot sector. -/
def c3contents : String → List Nat := fun _ => mbr_block512

/-- Witness block-size collaborator: 512-byte sectors everywhere. -/
def c3block : String → Nat := fun _ => 512

/-- Witness decode collaborator: decoding always fails. -/
def c3decode : List Nat → Option (List FitImage) := fun _ => none

/-- Witness replacement MLO image. -/
def c3new_mlo : FirmwareImage := ⟨("new-mlo"), 0, ImageKind.MLO, 512⟩

/-- Witness replacement U-Boot image. -/
def c3new_u_boot : FirmwareImage := ⟨("new-u-boot"), 0, ImageKind.UBOOT, 512⟩

/-- Witness discovered image at probe offset 0x20000. -/
def c3image : FirmwareImage := ⟨("dev"), 0x20000, ImageKind.MLO, 512⟩

/-- C3 witness: the theorem applied at a concrete device whose boundary
is 1048576 and whose discovered image sits at offset 0x20000. -/
theorem compare_images_update_membership_witness :
    c3image ∈ compare_images c3sha c3decode c3block c3contents c3new_mlo c3new_u_boot
        [("dev")] ↔
      (c3image.offset + (replacementFor c3new_mlo c3new_u_boot c3image.kind).size <
          1048576 ∧
        FirmwareImage.hexdigest c3sha c3contents
            (replacementFor c3new_mlo c3new_u_boot c3image.kind) ≠
          FirmwareImage.hexdigest c3sha c3contents c3image) :=
  compare_images_update_membership c3sha c3decode c3block c3contents c3new_mlo
    c3new_u_boot ("dev") 1048576 c3image (by decide) (by decide) (by decide)

/-- Concrete 64-byte legacy U-Boot header: magic 0x27051956, data size 0
(so total size 64), OS 17, image type 5. -/
def uboot_header64 : List Nat :=
  [0x27, 0x05, 0x19, 0x56] ++ List.replicate 24 0 ++ [17, 0, 5, 0] ++
    List.replicate 32 0

/-- Concrete device bytes for the end-to-end planner scenario: the boot
sector `mbr_block512` (which also carries the TOC the hash collaborator
recognises) at offset 0, zeros up to 0x60000, and a legacy U-Boot header
at 0x60000. -/
def c2dev_bytes : List Nat :=
  mbr_block512 ++ (List.replicate 130560 0 ++ (List.replicate 131072 0 ++
    (List.replicate 131072 0 ++ uboot_header64)))

/-- Scenario hash collaborator: exactly the 512-byte block at device
offset 0 hashes to the known-good TOC digest. -/
def c2sha : List Nat → String := fun bs =>
  if bs = mbr_block512 then mlo_toc_expected_hash else ("other-hash")

/-- Scenario path contents: the device, the replacement U-Boot file
(byte-identical to the header on the device) and the replacement MLO
file (a single differing byte). -/
def c2contents : String → List Nat := fun s =>
  if s = ("dev") then c2dev_bytes
  else if s = ("new-u-boot") then uboot_header64
  else if s = ("new-mlo") then [1]
  else []

/-- Scenario block-size collaborator: 512-byte sectors. -/
def c2block : String → Nat := fun _ => 512

/-- Scenario decode collaborator: decoding always fails. -/
def c2decode : List Nat → Option (List FitImage) := fun _ => none

/-- Scenario replacement first-stage image. -/
def c2new_mlo : FirmwareImage := ⟨("new-mlo"), 0, ImageKind.MLO, 1⟩

/-- Scenario replacement second-stage image. -/
def c2new_u_boot : FirmwareImage := ⟨("new-u-boot"), 0, ImageKind.UBOOT, 64⟩

/-- Helper: taking a prefix of a run of zeros followed by anything gives
a run of zeros. -/
theorem take_replicate_zero_append (m n : Nat) (X : List Nat) (h : n ≤ m) :
    (List.replicate m (0 : Nat) ++ X).take n = List.replicate n 0 := by
  rw [List.take_append_eq_append_take, List.take_replicate, List.length_replicate,
    Nat.sub_eq_zero_of_le h, List.take_zero, List.append_nil, min_eq_left h]

/-- Helper: a read from offset 0 of a run of zeros followed by anything
gives a run of zeros. -/
theorem readBytes_zero_run_front (m : Nat) (X : List Nat) (n : Nat) (h : n ≤ m) :
    readBytes (List.replicate m (0 : Nat) ++ X) 0 n = List.replicate n 0 := by
  unfold readBytes
  rw [List.drop_zero]
  exact take_replicate_zero_append m n X h

/-- Helper: reads of the scenario device that stay inside the first 512
bytes only see the boot sector. -/
theorem c2_readBytes_pre (off n : Nat) (h : off + n ≤ 512) :
    readBytes c2dev_bytes off n = readBytes mbr_block512 off n := by
  unfold c2dev_bytes
  exact readBytes_append_left _ _ off n
    (le_trans h (le_of_eq (by decide)))

/-- Helper: the partition entries of the scenario device are those of its
boot sector. -/
theorem c2_mbrEntries : mbrEntries c2dev_bytes = mbrEntries mbr_block512 := by
  unfold mbrEntries
  have h4 : List.range 4 = [0, 1, 2, 3] := rfl
  rw [h4]
  simp only [List.map_cons, List.map_nil]
  norm_num
  rw [c2_readBytes_pre 446 16 (by norm_num), c2_readBytes_pre 462 16 (by norm_num),
    c2_readBytes_pre 478 16 (by norm_num), c2_readBytes_pre 494 16 (by norm_num)]
  exact ⟨rfl, rfl, rfl, rfl⟩

/-- Helper: the scenario device has its first partition at byte offset
1048576 (LBA 2048 times 512-byte sectors). -/
theorem c2_boundary : find_mbr_first_partition c2dev_bytes 512 = some 1048576 := by
  unfold find_mbr_first_partition
  rw [c2_readBytes_pre 0x1fe 2 (by norm_num), c2_mbrEntries]
  decide

/-- Helper: the scenario stream at probe offset 0x20000 starts a run of
zeros followed by the header. -/
theorem c2_drop_20000 : c2dev_bytes.drop 0x20000 =
    List.replicate 131072 (0 : Nat) ++ (List.replicate 131072 0 ++ uboot_header64) := by
  unfold c2dev_bytes
  rw [← List.append_assoc]
  exact List.drop_left' (by
    rw [List.length_append, List.length_replicate,
      show mbr_block512.length = 512 from by decide])

/-- Helper: the scenario stream at probe offset 0x40000 starts a run of
zeros followed by the header. -/
theorem c2_drop_40000 : c2dev_bytes.drop 0x40000 =
    List.replicate 131072 (0 : Nat) ++ uboot_header64 := by
  unfold c2dev_bytes
  rw [← List.append_assoc, ← List.append_assoc]
  exact List.drop_left' (by
    rw [List.length_append, List.length_append, List.length_replicate,
      List.length_replicate, show mbr_block512.length = 512 from by decide])

/-- Helper: the scenario stream at probe offset 0x60000 is exactly the
legacy header. -/
theorem c2_drop_60000 : c2dev_bytes.drop 0x60000 = uboot_header64 := by
  unfold c2dev_bytes
  rw [← List.append_assoc, ← List.append_assoc, ← List.append_assoc]
  exact List.drop_left' (by
    rw [List.length_append, List.length_append, List.length_append,
      List.length_replicate, List.length_replicate,
      show mbr_block512.length = 512 from by decide])

/-- Helper: at device offset 0 the TOC detector accepts and reports size
512 (trailer length 0). -/
theorem c2_mlo_at_0 : get_mlo_toc_size c2sha c2dev_bytes = Except.ok 512 := by
  simp only [get_mlo_toc_size]
  have h512 : readBytes c2dev_bytes 0 512 = mbr_block512 := by
    rw [c2_readBytes_pre 0 512 (by norm_num)]
    exact readBytes_all mbr_block512 512 (by decide)
  have htrail : readBytes c2dev_bytes 512 4 = List.replicate 4 0 := by
    unfold readBytes c2dev_bytes
    rw [List.drop_left' (show mbr_block512.length = 512 from by decide)]
    exact take_replicate_zero_append 130560 4 _ (by norm_num)
  rw [h512, htrail]
  have hsha : c2sha mbr_block512 = mlo_toc_expected_hash := by
    unfold c2sha
    rw [if_pos rfl]
  rw [hsha, if_neg (by simp)]
  decide

/-- Helper: at device offset 0 the legacy detector rejects (magic is 0). -/
theorem c2_legacy_at_0 : get_u_boot_legacy_size c2dev_bytes =
    Except.error (ImageError.invalidFirmware ("Incorrect legacy U-Boot magic number")) := by
  simp only [get_u_boot_legacy_size]
  rw [c2_readBytes_pre 0 64 (by norm_num)]
  rw [if_pos (by decide)]

/-- Helper: at device offset 0 the FIT detector rejects (magic is 0). -/
theorem c2_fit_at_0 : get_u_boot_fit_size c2decode c2dev_bytes =
    Except.error (ImageError.invalidFirmware ("Magic number does not match for an FDT")) := by
  simp only [get_u_boot_fit_size]
  rw [c2_readBytes_pre 0 4 (by norm_num)]
  rw [if_pos (by decide)]

/-- Helper: the TOC detector rejects a stream of zeros (its first 512
bytes hash to the non-matching value). -/
theorem c2_mlo_zeros (X : List Nat) :
    get_mlo_toc_size c2sha (List.replicate 131072 (0 : Nat) ++ X) =
      Except.error (ImageError.invalidFirmware ("TOC hash did not match")) := by
  simp only [get_mlo_toc_size]
  rw [readBytes_zero_run_front 131072 X 512 (by norm_num)]
  have hsha : c2sha (List.replicate 512 0) = ("other-hash") := by
    unfold c2sha
    rw [if_neg (by decide)]
  rw [hsha, if_pos (by decide)]

/-- Helper: the legacy detector rejects a stream of zeros (magic is 0). -/
theorem c2_legacy_zeros (X : List Nat) :
    get_u_boot_legacy_size (List.replicate 131072 (0 : Nat) ++ X) =
      Except.error (ImageError.invalidFirmware ("Incorrect legacy U-Boot magic number")) := by
  simp only [get_u_boot_legacy_size]
  rw [readBytes_zero_run_front 131072 X 64 (by norm_num)]
  rw [if_pos (by decide)]

/-- Helper: the FIT detector rejects a stream of zeros (magic is 0). -/
theorem c2_fit_zeros (X : List Nat) :
    get_u_boot_fit_size c2decode (List.replicate 131072 (0 : Nat) ++ X) =
      Except.error (ImageError.invalidFirmware ("Magic number does not match for an FDT")) := by
  simp only [get_u_boot_fit_size]
  rw [readBytes_zero_run_front 131072 X 4 (by norm_num)]
  rw [if_pos (by decide)]

/-- Helper: the TOC detector rejects the bare 64-byte header. -/
theorem c2_mlo_hdr : get_mlo_toc_size c2sha uboot_header64 =
    Except.error (ImageError.invalidFirmware ("TOC hash did not match")) := by decide

/-- Helper: the legacy detector accepts the bare 64-byte header with size
64. -/
theorem c2_legacy_hdr : get_u_boot_legacy_size uboot_header64 = Except.ok 64 := by decide

/-- Helper: the FIT detector rejects the bare 64-byte header. -/
theorem c2_fit_hdr : get_u_boot_fit_size c2decode uboot_header64 =
    Except.error (ImageError.invalidFirmware ("Magic number does not match for an FDT")) := by
  decide

/-- Helper: the images discovered on the scenario device are exactly the
first-stage image at offset 0 (size 512) and the second-stage image at
offset 0x60000 (size 64). -/
theorem c2_find_images :
    find_images c2sha c2decode ("dev") c2dev_bytes =
      [⟨("dev"), 0, ImageKind.MLO, 512⟩, ⟨("dev"), 0x60000, ImageKind.UBOOT, 64⟩] := by
  simp only [find_images, probe_offsets, List.flatMap_cons, List.flatMap_nil,
    List.drop_zero, c2_drop_20000, c2_drop_40000, c2_drop_60000,
    c2_mlo_at_0, c2_legacy_at_0, c2_fit_at_0,
    c2_mlo_zeros, c2_legacy_zeros, c2_fit_zeros,
    c2_mlo_hdr, c2_legacy_hdr, c2_fit_hdr,
    List.append_nil, List.nil_append]
  rfl

/-- Helper: the contents collaborator maps the device path to the device
bytes. -/
theorem c2_contents_dev : c2contents ("dev") = c2dev_bytes := by
  unfold c2contents
  rw [if_pos rfl]

/-- Helper: the replacement first-stage file hashes differently from the
first-stage image found at device offset 0. -/
theorem c2_hash_ne :
    FirmwareImage.hexdigest c2sha c2contents c2new_mlo ≠
      FirmwareImage.hexdigest c2sha c2contents ⟨("dev"), 0, ImageKind.MLO, 512⟩ := by
  simp only [FirmwareImage.hexdigest, c2new_mlo]
  rw [c2_contents_dev]
  have hm : c2contents ("new-mlo") = [1] := by
    unfold c2contents
    rw [if_neg (by decide), if_neg (by decide), if_pos rfl]
  rw [hm]
  have hr : readBytes c2dev_bytes 0 512 = mbr_block512 := by
    rw [c2_readBytes_pre 0 512 (by norm_num)]
    exact readBytes_all mbr_block512 512 (by decide)
  rw [hr]
  unfold c2sha
  rw [if_neg (by decide), if_pos rfl]
  decide

/-- Helper: the replacement second-stage file hashes identically to the
second-stage image found at device offset 0x60000 (the byte ranges are
equal). -/
theorem c2_hash_eq :
    FirmwareImage.hexdigest c2sha c2contents c2new_u_boot =
      FirmwareImage.hexdigest c2sha c2contents ⟨("dev"), 0x60000, ImageKind.UBOOT, 64⟩ := by
  simp only [FirmwareImage.hexdigest, c2new_u_boot]
  rw [c2_contents_dev]
  have hu : c2contents ("new-u-boot") = uboot_header64 := by
    unfold c2contents
    rw [if_neg (by decide), if_pos rfl]
  rw [hu]
  have hl : readBytes uboot_header64 0 64 = uboot_header64 :=
    readBytes_all uboot_header64 64 (by decide)
  have hr : readBytes c2dev_bytes 0x60000 64 = uboot_header64 := by
    unfold readBytes
    rw [c2_drop_60000]
    exact List.take_of_length_le (by decide)
  rw [hl, hr]

/-- Helper: the planner's update list for the scenario device is empty:
the differing first-stage image sits at offset 0 and is rejected by the
boot-sector check, and the second-stage image is current. -/
theorem c2_compare_empty :
    compare_images c2sha c2decode c2block c2contents c2new_mlo c2new_u_boot
      [("dev")] = [] := by
  unfold compare_images
  simp only [List.flatMap_cons, List.flatMap_nil, List.append_nil, c2_contents_dev]
  have hb : find_mbr_first_partition c2dev_bytes (c2block ("dev")) = some 1048576 :=
    c2_boundary
  simp only [hb, c2_find_images]
  rw [List.filter_cons_of_neg (by rw [updateNeeded, if_pos rfl]; simp)]
  rw [List.filter_cons_of_neg ?hu]
  case hu =>
    rw [updateNeeded, if_neg (by decide)]
    rw [if_neg ?hge]
    case hge =>
      simp only [replacementFor, FirmwareImage.matmulImage, FirmwareImage.geInt,
        c2new_u_boot]
      decide
    simp only [replacementFor, c2_hash_eq]
    simp
  rfl

/-- C2 counterexample: in the end-to-end scenario - boundary resolved at
1048576, a discovered first-stage image at offset 0 whose hash differs
from the replacement, and a discovered second-stage image at offset
0x60000 byte-identical to its replacement - the planner's update list is
empty; in particular it does not contain the offset-0 first-stage entry
the claim promises, because `compare_images` rejects every image at
offset 0 as overlapping the boot sector. -/
theorem planner_offset_zero_scenario_empty :
    find_mbr_first_partition (c2contents ("dev")) (c2block ("dev")) = some 1048576 ∧
    find_images c2sha c2decode ("dev") (c2contents ("dev")) =
      [⟨("dev"), 0, ImageKind.MLO, 512⟩, ⟨("dev"), 0x60000, ImageKind.UBOOT, 64⟩] ∧
    FirmwareImage.hexdigest c2sha c2contents c2new_mlo ≠
      FirmwareImage.hexdigest c2sha c2contents ⟨("dev"), 0, ImageKind.MLO, 512⟩ ∧
    FirmwareImage.hexdigest c2sha c2contents c2new_u_boot =
      FirmwareImage.hexdigest c2sha c2contents ⟨("dev"), 0x60000, ImageKind.UBOOT, 64⟩ ∧
    compare_images c2sha c2decode c2block c2contents c2new_mlo c2new_u_boot
      [("dev")] = [] ∧
    (⟨("dev"), 0, ImageKind.MLO, 512⟩ : FirmwareImage) ∉
      compare_images c2sha c2decode c2block c2contents c2new_mlo c2new_u_boot
        [("dev")] := by
  refine ⟨?_, ?_, c2_hash_ne, c2_hash_eq, c2_compare_empty, ?_⟩
  · rw [c2_contents_dev]
    exact c2_boundary
  · rw [c2_contents_dev]
    exact c2_find_images
  · rw [c2_compare_empty]
    exact List.not_mem_nil _

/-- C2 amended theorem: in the scenario of the claim, the planner's
update list contains no entry at all: the offset-0 first-stage image is
rejected by the boot-sector overlap check whatever its hash, and the
byte-identical second-stage image needs no update. -/
theorem planner_offset_zero_scenario_update_list
    (sha256hex : List Nat → String) (decode : List Nat → Option (List FitImage))
    (block_size : String → Nat) (contents : String → List Nat)
    (new_mlo new_u_boot : FirmwareImage) (device_path : String) (boundary : Nat)
    (m u : FirmwareImage)
    (hb : find_mbr_first_partition (contents device_path) (block_size device_path) =
      some boundary)
    (hf : find_images sha256hex decode device_path (contents device_path) = [m, u])
    (hm0 : m.offset = 0)
    (huk : u.kind = ImageKind.UBOOT)
    (hhash : FirmwareImage.hexdigest sha256hex contents new_u_boot =
      FirmwareImage.hexdigest sha256hex contents u) :
    compare_images sha256hex decode block_size contents new_mlo new_u_boot
      [device_path] = [] := by
  unfold compare_images
  simp only [List.flatMap_cons, List.flatMap_nil, List.append_nil, hb, hf]
  rw [List.filter_cons_of_neg (by rw [updateNeeded, if_pos hm0]; simp)]
  rw [List.filter_cons_of_neg ?hu]
  case hu =>
    rw [updateNeeded]
    by_cases hu0 : u.offset = 0
    · rw [if_pos hu0]
      simp
    · rw [if_neg hu0]
      by_cases hge : ((replacementFor new_mlo new_u_boot u.kind).matmulImage u).geInt
          boundary = true
      · rw [if_pos hge]
        simp
      · rw [if_neg hge]
        rw [huk]
        simp only [replacementFor, hhash]
        simp
  rfl

/-- C2 witness: the amended theorem applied to the concrete scenario. -/
theorem planner_offset_zero_scenario_update_list_witness :
    compare_images c2sha c2decode c2block c2contents c2new_mlo c2new_u_boot
      [("dev")] = [] :=
  planner_offset_zero_scenario_update_list c2sha c2decode c2block c2contents
    c2new_mlo c2new_u_boot ("dev") 1048576
    ⟨("dev"), 0, ImageKind.MLO, 512⟩ ⟨("dev"), 0x60000, ImageKind.UBOOT, 64⟩
    (by rw [c2_contents_dev]; exact c2_boundary)
    (by rw [c2_contents_dev]; exact c2_find_images)
    rfl rfl c2_hash_eq
